import Mathlib

/-!
Shallow embedding of the 6502 CPU emulator core from `src/main.rs`
(repository `hareyukai/sens`).

Conventions of the embedding:
* Machine integers are `Nat` with explicit wrapping (`% 256`, `% 65536`)
  exactly where the source uses `wrapping_add` / `wrapping_sub` or an
  explicit truncating cast (`as u8`).
* Rust's plain `+` on `u16` is overflow-checked (it panics in a checked
  build); it is modelled by `u16_checked_add`, which returns `none` on
  overflow.
* Array indexing of the CPU memory (`self.memory[addr as usize]`) is a
  fallible operation: the source allocates `[u8; 0xFFFF]` (65535 bytes),
  so an index must be `< 0xFFFF`; out-of-range indexing panics and is
  modelled as `none`.
* The `bitflags` register `ProcessorStatus` is represented as a record of
  `Bool` fields, one per flag bit, with `bits`/`ofBits` giving the packed
  byte used by PHP/PLP/RTI.
* Functions that can panic (array indexing, checked `+`, `todo!()`,
  `panic!` on `AddressingMode::Implied`) return `Option`.
-/

namespace Sens

/-- The addressing modes of `enum AddressingMode` in the source. -/
inductive AddressingMode where
  | Immediate
  | ZeroPage
  | ZeroPageX
  | ZeroPageY
  | Absolute
  | AbsoluteX
  | AbsoluteY
  | IndirectX
  | IndirectY
  | Implied
deriving DecidableEq, Repr

/-- The `bitflags` processor status register, one `Bool` per flag bit
(bit 0 CARRY, bit 1 ZERO, bit 2 INTERRUPT_DISABLE, bit 3 DECIMAL_MODE,
bit 4 BREAK, bit 5 BREAK2, bit 6 OVERFLOW, bit 7 NEGATIVE). -/
structure ProcessorStatus where
  carry : Bool
  zero : Bool
  interrupt_disable : Bool
  decimal_mode : Bool
  brk : Bool
  brk2 : Bool
  overflow : Bool
  negative : Bool
deriving DecidableEq, Repr

/-- Packed byte of the status register, as `bits()` of the bitflags type. -/
def ProcessorStatus.bits (p : ProcessorStatus) : Nat :=
  (if p.carry then 0x01 else 0) +
  (if p.zero then 0x02 else 0) +
  (if p.interrupt_disable then 0x04 else 0) +
  (if p.decimal_mode then 0x08 else 0) +
  (if p.brk then 0x10 else 0) +
  (if p.brk2 then 0x20 else 0) +
  (if p.overflow then 0x40 else 0) +
  (if p.negative then 0x80 else 0)

/-- Rebuild the status register from a byte, as `bits = val` on the
bitflags type (used by PLP and RTI). -/
def ProcessorStatus.ofBits (n : Nat) : ProcessorStatus where
  carry := n.testBit 0
  zero := n.testBit 1
  interrupt_disable := n.testBit 2
  decimal_mode := n.testBit 3
  brk := n.testBit 4
  brk2 := n.testBit 5
  overflow := n.testBit 6
  negative := n.testBit 7

/-- `const STACK: u16 = 0x0100`. -/
def STACK : Nat := 0x0100

/-- `const STACK_RESET: u8 = 0xfd`. -/
def STACK_RESET : Nat := 0xfd

/-- Size of the backing memory array: the source declares
`memory: [u8; 0xFFFF]`, i.e. 65535 bytes (valid indices `0..=0xFFFE`). -/
def MEM_SIZE : Nat := 0xFFFF

/-- The CPU state of `struct CPU`.  The memory array is modelled as a
function from addresses to byte values. -/
structure CPU where
  ra : Nat
  rx : Nat
  ry : Nat
  rs : Nat
  pc : Nat
  rp : ProcessorStatus
  memory : Nat → Nat

/-- `CPU::new()`: registers zeroed, SP = `STACK_RESET`,
P = `BREAK2 | INTERRUPT_DISABLE`, memory zero-filled. -/
def CPU.new : CPU where
  ra := 0
  rx := 0
  ry := 0
  rs := STACK_RESET
  pc := 0
  rp := { carry := false, zero := false, interrupt_disable := true,
          decimal_mode := false, brk := false, brk2 := true,
          overflow := false, negative := false }
  memory := fun _ => 0

/-- Rust `u8` wrapping arithmetic result. -/
def wrap8 (n : Nat) : Nat := n % 0x100

/-- Rust `u16` wrapping arithmetic result. -/
def wrap16 (n : Nat) : Nat := n % 0x10000

/-- Rust `+` on `u16`: overflow is a panic (checked build), modelled as
`none`. -/
def u16_checked_add (a b : Nat) : Option Nat :=
  if a + b < 0x10000 then some (a + b) else none

/-- `fn mem_read(&self, addr: u16) -> u8`: `self.memory[addr as usize]`.
Indexing past the end of the 65535-byte array panics (`none`). -/
def CPU.mem_read (c : CPU) (addr : Nat) : Option Nat :=
  if addr < MEM_SIZE then some (c.memory addr) else none

/-- `fn mem_write(&mut self, addr: u16, val: u8)`. -/
def CPU.mem_write (c : CPU) (addr val : Nat) : Option CPU :=
  if addr < MEM_SIZE then
    some { c with memory := fun i => if i = addr then val else c.memory i }
  else none

/-- `fn mem_read_u16(&self, pos: u16) -> u16`: reads `lo` at `pos`, `hi` at
`pos + 1` (plain checked `+`), and returns `u16::from_le_bytes([lo, hi])`,
i.e. `256 * hi + lo`. -/
def CPU.mem_read_u16 (c : CPU) (pos : Nat) : Option Nat := do
  let lo ← c.mem_read pos
  let p1 ← u16_checked_add pos 1
  let hi ← c.mem_read p1
  some (256 * hi + lo)

/-- `fn mem_write_u16(&mut self, pos: u16, val: u16)`. -/
def CPU.mem_write_u16 (c : CPU) (pos val : Nat) : Option CPU := do
  let hi := wrap8 (val >>> 8)
  let lo := val &&& 0xff
  let c ← c.mem_write pos lo
  let p1 ← u16_checked_add pos 1
  c.mem_write p1 hi

/-- `fn stack_pop(&mut self) -> u8`: increments SP (wrapping) then reads
`STACK + SP`; returns the byte together with the updated CPU. -/
def CPU.stack_pop (c : CPU) : Option (Nat × CPU) := do
  let rs' := wrap8 (c.rs + 1)
  let c := { c with rs := rs' }
  let v ← c.mem_read (STACK + rs')
  some (v, c)

/-- `fn stack_pop_u16(&mut self) -> u16`: pops `lo` then `hi` and returns
`(hi << 8) | lo`. -/
def CPU.stack_pop_u16 (c : CPU) : Option (Nat × CPU) := do
  let (lo, c) ← c.stack_pop
  let (hi, c) ← c.stack_pop
  some ((hi <<< 8) ||| lo, c)

/-- `fn stack_push(&mut self, val: u8)`: writes at `STACK + SP` then
decrements SP (wrapping). -/
def CPU.stack_push (c : CPU) (val : Nat) : Option CPU := do
  let c ← c.mem_write (STACK + c.rs) val
  some { c with rs := wrap8 (c.rs + 0xff) }

/-- `fn stack_push_u16(&mut self, val: u16)`: pushes the high byte
`(val >> 8) as u8` first, then the low byte `(val & 0xff) as u8`. -/
def CPU.stack_push_u16 (c : CPU) (val : Nat) : Option CPU := do
  let hi := wrap8 (val >>> 8)
  let lo := val &&& 0xff
  let c ← c.stack_push hi
  c.stack_push lo

/-- `fn get_operand_address(&self, mode: AddressingMode) -> u16`.
`AddressingMode::Implied` is a `panic!` in the source, modelled as `none`. -/
def CPU.get_operand_address (c : CPU) (mode : AddressingMode) : Option Nat :=
  match mode with
  | .Immediate => some c.pc
  | .ZeroPage => c.mem_read c.pc
  | .Absolute => c.mem_read_u16 c.pc
  | .ZeroPageX => (c.mem_read c.pc).map (fun b => wrap8 (b + c.rx))
  | .ZeroPageY => (c.mem_read c.pc).map (fun b => wrap8 (b + c.ry))
  | .AbsoluteX => (c.mem_read_u16 c.pc).map (fun b => wrap16 (b + c.rx))
  | .AbsoluteY => (c.mem_read_u16 c.pc).map (fun b => wrap16 (b + c.ry))
  | .IndirectX => do
      -- `let addr = self.mem_read(self.pc).wrapping_add(self.rx) as u16;`
      let b ← c.mem_read c.pc
      let addr := wrap8 (b + c.rx)
      let lo ← c.mem_read addr
      -- `addr.wrapping_add(1)` is a *u16* wrapping add in the source
      let hi ← c.mem_read (wrap16 (addr + 1))
      some ((hi <<< 8) ||| lo)
  | .IndirectY => do
      -- `let addr = self.mem_read(self.pc) as u16;`
      let b ← c.mem_read c.pc
      let lo ← c.mem_read b
      -- `addr.wrapping_add(1)` is a *u16* wrapping add in the source
      let hi ← c.mem_read (wrap16 (b + 1))
      let deref_base := (hi <<< 8) ||| lo
      some (wrap16 (deref_base + c.ry))
  | .Implied => none

/-- `fn update_negative_flag(&mut self, reg: u8)`. -/
def CPU.update_negative_flag (c : CPU) (reg : Nat) : CPU :=
  { c with rp := { c.rp with negative := reg &&& 0x80 != 0 } }

/-- `fn update_zero_and_negative_flags(&mut self, reg: u8)`. -/
def CPU.update_zero_and_negative_flags (c : CPU) (reg : Nat) : CPU :=
  CPU.update_negative_flag { c with rp := { c.rp with zero := reg == 0 } } reg

/-- `fn set_reg_a(&mut self, val: u8)`. -/
def CPU.set_reg_a (c : CPU) (val : Nat) : CPU :=
  CPU.update_zero_and_negative_flags { c with ra := val } val

/-- `fn add_to_reg_a(&mut self, val: u8)`: the common core of ADC and SBC.
`s` is the 16-bit sum of A, the operand and the carry; the carry flag is
set from `0xff < s`, the overflow flag from
`(val ^ result) & (ra ^ result) & 0x80 != 0` (`ra` still holding the old
accumulator), and `set_reg_a(s as u8)` finishes. -/
def CPU.add_to_reg_a (c : CPU) (val : Nat) : CPU :=
  let s := c.ra + val + (if c.rp.carry then 1 else 0)
  let c1 := { c with rp := { c.rp with carry := decide (0xff < s) } }
  let result := wrap8 s
  let c2 := { c1 with rp := { c1.rp with
    overflow := (val ^^^ result) &&& (c.ra ^^^ result) &&& 0x80 != 0 } }
  c2.set_reg_a result

/-- `fn adc(&mut self, mode: AddressingMode)`. -/
def CPU.adc (c : CPU) (mode : AddressingMode) : Option CPU := do
  let addr ← c.get_operand_address mode
  let val ← c.mem_read addr
  some (c.add_to_reg_a val)

/-- `fn and(&mut self, mode: AddressingMode)`. -/
def CPU.and (c : CPU) (mode : AddressingMode) : Option CPU := do
  let addr ← c.get_operand_address mode
  let val ← c.mem_read addr
  some (c.set_reg_a (c.ra &&& val))

/-- `fn asl_accumulator(&mut self)`; `val << 1` on `u8` discards the
shifted-out bit, i.e. is `val * 2 % 256`. -/
def CPU.asl_accumulator (c : CPU) : CPU :=
  let val := c.ra
  let c := { c with rp := { c.rp with carry := val &&& 0x80 != 0 } }
  c.set_reg_a (wrap8 (val * 2))

/-- `fn asl(&mut self, mode: AddressingMode)`. -/
def CPU.asl (c : CPU) (mode : AddressingMode) : Option CPU := do
  let addr ← c.get_operand_address mode
  let val ← c.mem_read addr
  let c := { c with rp := { c.rp with carry := val &&& 0x80 != 0 } }
  let result := wrap8 (val * 2)
  let c ← c.mem_write addr result
  some (c.update_zero_and_negative_flags result)

/-- `fn branch(&mut self, condition: bool)`: when taken, the offset byte at
PC is sign-extended (`as i8 as u16`) and PC becomes
`PC.wrapping_add(1).wrapping_add(jump)`; when not taken `self.pc += 1`
(plain checked `+`). -/
def CPU.branch (c : CPU) (condition : Bool) : Option CPU :=
  if condition then do
    let b ← c.mem_read c.pc
    let jump := if b < 0x80 then b else 0xff00 + b
    some { c with pc := wrap16 (wrap16 (c.pc + 1) + jump) }
  else do
    let p ← u16_checked_add c.pc 1
    some { c with pc := p }

/-- `fn bbc(&mut self)` (branch on carry clear). -/
def CPU.bbc (c : CPU) : Option CPU := c.branch (!c.rp.carry)

/-- `fn bcs(&mut self)`. -/
def CPU.bcs (c : CPU) : Option CPU := c.branch c.rp.carry

/-- `fn beq(&mut self)`. -/
def CPU.beq (c : CPU) : Option CPU := c.branch c.rp.zero

/-- `fn bit(&mut self, mode: AddressingMode)`. -/
def CPU.bit (c : CPU) (mode : AddressingMode) : Option CPU := do
  let addr ← c.get_operand_address mode
  let val ← c.mem_read addr
  some { c with rp := { c.rp with
    zero := c.ra &&& val == 0,
    overflow := val &&& 0x40 != 0,
    negative := val &&& 0x80 != 0 } }

/-- `fn bmi(&mut self)`. -/
def CPU.bmi (c : CPU) : Option CPU := c.branch c.rp.negative

/-- `fn bne(&mut self)`. -/
def CPU.bne (c : CPU) : Option CPU := c.branch (!c.rp.zero)

/-- `fn bpl(&mut self)`. -/
def CPU.bpl (c : CPU) : Option CPU := c.branch (!c.rp.negative)

/-- `fn bvc(&mut self)`. -/
def CPU.bvc (c : CPU) : Option CPU := c.branch (!c.rp.overflow)

/-- `fn bvs(&mut self)`. -/
def CPU.bvs (c : CPU) : Option CPU := c.branch c.rp.overflow

/-- `fn clc(&mut self)`. -/
def CPU.clc (c : CPU) : CPU := { c with rp := { c.rp with carry := false } }

/-- `fn cld(&mut self)`. -/
def CPU.cld (c : CPU) : CPU :=
  { c with rp := { c.rp with decimal_mode := false } }

/-- `fn cli(&mut self)`. -/
def CPU.cli (c : CPU) : CPU :=
  { c with rp := { c.rp with interrupt_disable := false } }

/-- `fn clv(&mut self)`. -/
def CPU.clv (c : CPU) : CPU := { c with rp := { c.rp with overflow := false } }

/-- `fn compare(&mut self, mode: AddressingMode, other: u8)`: carry is set
from `val <= other`; Z and N from `other.wrapping_sub(val)`. -/
def CPU.compare (c : CPU) (mode : AddressingMode) (other : Nat) :
    Option CPU := do
  let addr ← c.get_operand_address mode
  let val ← c.mem_read addr
  let c := { c with rp := { c.rp with carry := decide (val ≤ other) } }
  some (c.update_zero_and_negative_flags (wrap8 (other + 0x100 - val)))

/-- `fn cmp(&mut self, mode: AddressingMode)`. -/
def CPU.cmp (c : CPU) (mode : AddressingMode) : Option CPU :=
  c.compare mode c.ra

/-- `fn cpx(&mut self, mode: AddressingMode)`. -/
def CPU.cpx (c : CPU) (mode : AddressingMode) : Option CPU :=
  c.compare mode c.rx

/-- `fn cpy(&mut self, mode: AddressingMode)`. -/
def CPU.cpy (c : CPU) (mode : AddressingMode) : Option CPU :=
  c.compare mode c.ry

/-- `fn dec(&mut self, mode: AddressingMode)`. -/
def CPU.dec (c : CPU) (mode : AddressingMode) : Option CPU := do
  let addr ← c.get_operand_address mode
  let val ← c.mem_read addr
  let result := wrap8 (val + 0xff)
  let c ← c.mem_write addr result
  some (c.update_zero_and_negative_flags result)

/-- `fn dex(&mut self)`. -/
def CPU.dex (c : CPU) : CPU :=
  let c := { c with rx := wrap8 (c.rx + 0xff) }
  c.update_zero_and_negative_flags c.rx

/-- `fn dey(&mut self)`. -/
def CPU.dey (c : CPU) : CPU :=
  let c := { c with ry := wrap8 (c.ry + 0xff) }
  c.update_zero_and_negative_flags c.ry

/-- `fn eor(&mut self, mode: AddressingMode)`. -/
def CPU.eor (c : CPU) (mode : AddressingMode) : Option CPU := do
  let addr ← c.get_operand_address mode
  let val ← c.mem_read addr
  some (c.set_reg_a (c.ra ^^^ val))

/-- `fn inc(&mut self, mode: AddressingMode)`. -/
def CPU.inc (c : CPU) (mode : AddressingMode) : Option CPU := do
  let addr ← c.get_operand_address mode
  let val0 ← c.mem_read addr
  let val := wrap8 (val0 + 1)
  let c ← c.mem_write addr val
  some (c.update_zero_and_negative_flags val)

/-- `fn inx(&mut self)`. -/
def CPU.inx (c : CPU) : CPU :=
  let c := { c with rx := wrap8 (c.rx + 1) }
  c.update_zero_and_negative_flags c.rx

/-- `fn iny(&mut self)`. -/
def CPU.iny (c : CPU) : CPU :=
  let c := { c with ry := wrap8 (c.ry + 1) }
  c.update_zero_and_negative_flags c.ry

/-- `fn jmp_absolute(&mut self)`. -/
def CPU.jmp_absolute (c : CPU) : Option CPU := do
  let addr ← c.mem_read_u16 c.pc
  some { c with pc := addr }

/-- `fn jmp_indirect(&mut self)`: reads the pointer at PC; when the pointer
sits at the end of a page (`addr & 0x00ff == 0x00ff`), the high byte of the
target is read from `addr & 0xff00` (the 6502 page-wrap quirk), otherwise
the target is `mem_read_u16(addr)`. -/
def CPU.jmp_indirect (c : CPU) : Option CPU := do
  let addr ← c.mem_read_u16 c.pc
  let indirect_addr ←
    if addr &&& 0x00ff == 0x00ff then do
      let lo ← c.mem_read addr
      let hi ← c.mem_read (addr &&& 0xff00)
      some ((hi <<< 8) ||| lo)
    else
      c.mem_read_u16 addr
  some { c with pc := indirect_addr }

/-- `fn jsr(&mut self)`: pushes `self.pc + 1` (checked `+`), then jumps to
`mem_read_u16(self.pc)`. -/
def CPU.jsr (c : CPU) : Option CPU := do
  let r ← u16_checked_add c.pc 1
  let c ← c.stack_push_u16 r
  let addr ← c.mem_read_u16 c.pc
  some { c with pc := addr }

/-- `fn lda(&mut self, mode: AddressingMode)`. -/
def CPU.lda (c : CPU) (mode : AddressingMode) : Option CPU := do
  let addr ← c.get_operand_address mode
  let val ← c.mem_read addr
  some (c.set_reg_a val)

/-- `fn ldx(&mut self, mode: AddressingMode)`. -/
def CPU.ldx (c : CPU) (mode : AddressingMode) : Option CPU := do
  let addr ← c.get_operand_address mode
  let val ← c.mem_read addr
  let c := { c with rx := val }
  some (c.update_zero_and_negative_flags c.rx)

/-- `fn ldy(&mut self, mode: AddressingMode)`. -/
def CPU.ldy (c : CPU) (mode : AddressingMode) : Option CPU := do
  let addr ← c.get_operand_address mode
  let val ← c.mem_read addr
  let c := { c with ry := val }
  some (c.update_zero_and_negative_flags c.ry)

/-- `fn lsr_accumulator(&mut self)`. -/
def CPU.lsr_accumulator (c : CPU) : CPU :=
  let val := c.ra
  let c := { c with rp := { c.rp with carry := val &&& 0x1 != 0 } }
  c.set_reg_a (val / 2)

/-- `fn lsr(&mut self, mode: AddressingMode)`. -/
def CPU.lsr (c : CPU) (mode : AddressingMode) : Option CPU := do
  let addr ← c.get_operand_address mode
  let val ← c.mem_read addr
  let c := { c with rp := { c.rp with carry := val &&& 0x1 != 0 } }
  let result := val / 2
  let c ← c.mem_write addr result
  some (c.update_zero_and_negative_flags result)

/-- `fn ora(&mut self, mode: AddressingMode)`. -/
def CPU.ora (c : CPU) (mode : AddressingMode) : Option CPU := do
  let addr ← c.get_operand_address mode
  let val ← c.mem_read addr
  some (c.set_reg_a (c.ra ||| val))

/-- `fn pha(&mut self)`. -/
def CPU.pha (c : CPU) : Option CPU := c.stack_push c.ra

/-- `fn php(&mut self)`: pushes a copy of P with BREAK and BREAK2 set. -/
def CPU.php (c : CPU) : Option CPU :=
  c.stack_push (ProcessorStatus.bits { c.rp with brk := true, brk2 := true })

/-- `fn pla(&mut self)`. -/
def CPU.pla (c : CPU) : Option CPU := do
  let (val, c) ← c.stack_pop
  some (c.set_reg_a val)

/-- `fn plp(&mut self)`: pops into P, then removes BREAK and inserts
BREAK2. -/
def CPU.plp (c : CPU) : Option CPU := do
  let (val, c) ← c.stack_pop
  let p := ProcessorStatus.ofBits val
  some { c with rp := { p with brk := false, brk2 := true } }

/-- `fn rol_accumulator(&mut self)`. -/
def CPU.rol_accumulator (c : CPU) : CPU :=
  let val := c.ra
  let cf := c.rp.carry
  let c := { c with rp := { c.rp with carry := val &&& 0x80 != 0 } }
  let val := wrap8 (val * 2)
  let val := if cf then val ||| 1 else val
  c.set_reg_a val

/-- `fn rol(&mut self, mode: AddressingMode)` — the memory form writes the
rotated value back and then calls only `update_negative_flag` on it. -/
def CPU.rol (c : CPU) (mode : AddressingMode) : Option CPU := do
  let addr ← c.get_operand_address mode
  let val ← c.mem_read addr
  let cf := c.rp.carry
  let c := { c with rp := { c.rp with carry := val &&& 0x80 != 0 } }
  let val := wrap8 (val * 2)
  let val := if cf then val ||| 1 else val
  let c ← c.mem_write addr val
  some (c.update_negative_flag val)

/-- `fn ror_accumulator(&mut self)`. -/
def CPU.ror_accumulator (c : CPU) : CPU :=
  let val := c.ra
  let cf := c.rp.carry
  let c := { c with rp := { c.rp with carry := val &&& 0x1 != 0 } }
  let val := val / 2
  let val := if cf then val ||| 0x80 else val
  c.set_reg_a val

/-- `fn ror(&mut self, mode: AddressingMode)` — the memory form writes the
rotated value back and then calls only `update_negative_flag` on it. -/
def CPU.ror (c : CPU) (mode : AddressingMode) : Option CPU := do
  let addr ← c.get_operand_address mode
  let val ← c.mem_read addr
  let cf := c.rp.carry
  let c := { c with rp := { c.rp with carry := val &&& 0x1 != 0 } }
  let val := val / 2
  let val := if cf then val ||| 0x80 else val
  let c ← c.mem_write addr val
  some (c.update_negative_flag val)

/-- `fn rti(&mut self)`. -/
def CPU.rti (c : CPU) : Option CPU := do
  let (val, c) ← c.stack_pop
  let p := ProcessorStatus.ofBits val
  let c := { c with rp := { p with brk := false, brk2 := true } }
  let (addr, c) ← c.stack_pop_u16
  some { c with pc := addr }

/-- `fn rts(&mut self)`: `self.pc = self.stack_pop_u16() + 1` (checked
`+`). -/
def CPU.rts (c : CPU) : Option CPU := do
  let (addr, c) ← c.stack_pop_u16
  let p ← u16_checked_add addr 1
  some { c with pc := p }

/-- `fn sbc(&mut self, mode: AddressingMode)`: the operand is replaced by
`(val as i8).wrapping_neg().wrapping_sub(1) as u8`, i.e. the byte
`(256 - val) % 256 + 255` taken mod 256 (bitwise complement for byte
values), then added through `add_to_reg_a`. -/
def CPU.sbc (c : CPU) (mode : AddressingMode) : Option CPU := do
  let addr ← c.get_operand_address mode
  let val ← c.mem_read addr
  some (c.add_to_reg_a (wrap8 ((0x100 - val) % 0x100 + 0xff)))

/-- `fn sec(&mut self)`. -/
def CPU.sec (c : CPU) : CPU := { c with rp := { c.rp with carry := true } }

/-- `fn sed(&mut self)`. -/
def CPU.sed (c : CPU) : CPU :=
  { c with rp := { c.rp with decimal_mode := true } }

/-- `fn sei(&mut self)`. -/
def CPU.sei (c : CPU) : CPU :=
  { c with rp := { c.rp with interrupt_disable := true } }

/-- `fn sta(&mut self, mode: AddressingMode)`. -/
def CPU.sta (c : CPU) (mode : AddressingMode) : Option CPU := do
  let addr ← c.get_operand_address mode
  c.mem_write addr c.ra

/-- `fn stx(&mut self, mode: AddressingMode)`. -/
def CPU.stx (c : CPU) (mode : AddressingMode) : Option CPU := do
  let addr ← c.get_operand_address mode
  c.mem_write addr c.rx

/-- `fn sty(&mut self, mode: AddressingMode)`. -/
def CPU.sty (c : CPU) (mode : AddressingMode) : Option CPU := do
  let addr ← c.get_operand_address mode
  c.mem_write addr c.ry

/-- `fn tax(&mut self)`. -/
def CPU.tax (c : CPU) : CPU :=
  let c := { c with rx := c.ra }
  c.update_zero_and_negative_flags c.rx

/-- `fn tay(&mut self)`. -/
def CPU.tay (c : CPU) : CPU :=
  let c := { c with ry := c.ra }
  c.update_zero_and_negative_flags c.ry

/-- `fn tsx(&mut self)`. -/
def CPU.tsx (c : CPU) : CPU :=
  let c := { c with rx := c.rs }
  c.update_zero_and_negative_flags c.rx

/-- `fn txa(&mut self)`. -/
def CPU.txa (c : CPU) : CPU :=
  let c := { c with ra := c.rx }
  c.update_zero_and_negative_flags c.ra

/-- `fn txs(&mut self)`. -/
def CPU.txs (c : CPU) : CPU := { c with rs := c.rx }

/-- `fn tya(&mut self)`. -/
def CPU.tya (c : CPU) : CPU :=
  let c := { c with ra := c.ry }
  c.update_zero_and_negative_flags c.ra

/-- Outcome of one iteration of the interpreter loop: either the loop
returned (BRK) or it continues with the updated CPU state and the callback
is about to be invoked. -/
inductive StepOutcome where
  | halted (c : CPU)
  | next (c : CPU)

/-- The CPU state carried by a `StepOutcome`. -/
def StepOutcome.cpu : StepOutcome → CPU
  | .halted c => c
  | .next c => c

/-- Wraps an instruction result followed by the dispatcher's
`self.pc += k` operand advance (plain checked `+`). -/
def thenAdvance (k : Nat) (r : Option CPU) : Option StepOutcome := do
  let c ← r
  let p ← u16_checked_add c.pc k
  some (StepOutcome.next { c with pc := p })

/-- The opcode `match` of `run_with_callback`, applied to the state after
the opcode byte was consumed.  Each arm is transcribed from the source:
the instruction body, then the operand-size `self.pc += _` when present.
`0x00` (BRK) returns from the loop; the wildcard arm is `todo!()`
(a panic), modelled as `none`. -/
def dispatch (opscode : Nat) (c : CPU) : Option StepOutcome :=
  match opscode with
  | 0x69 => thenAdvance 1 (c.adc .Immediate)
  | 0x65 => thenAdvance 1 (c.adc .ZeroPage)
  | 0x75 => thenAdvance 1 (c.adc .ZeroPageX)
  | 0x6d => thenAdvance 2 (c.adc .Absolute)
  | 0x7d => thenAdvance 2 (c.adc .AbsoluteX)
  | 0x79 => thenAdvance 2 (c.adc .AbsoluteX)
  | 0x61 => thenAdvance 1 (c.adc .IndirectX)
  | 0x71 => thenAdvance 1 (c.adc .IndirectY)
  | 0x29 => thenAdvance 1 (c.and .Immediate)
  | 0x25 => thenAdvance 1 (c.and .ZeroPage)
  | 0x35 => thenAdvance 1 (c.and .ZeroPageX)
  | 0x2d => thenAdvance 2 (c.and .Absolute)
  | 0x3d => thenAdvance 2 (c.and .AbsoluteX)
  | 0x39 => thenAdvance 2 (c.and .AbsoluteY)
  | 0x21 => thenAdvance 1 (c.and .IndirectX)
  | 0x31 => thenAdvance 1 (c.and .IndirectY)
  | 0x0a => some (.next c.asl_accumulator)
  | 0x06 => thenAdvance 1 (c.asl .ZeroPage)
  | 0x16 => thenAdvance 1 (c.asl .ZeroPageX)
  | 0x0e => thenAdvance 2 (c.asl .Absolute)
  | 0x1e => thenAdvance 2 (c.asl .AbsoluteX)
  | 0x90 => c.bbc.map .next
  | 0xb0 => c.bcs.map .next
  | 0xf0 => c.beq.map .next
  | 0x24 => thenAdvance 1 (c.bit .ZeroPage)
  | 0x2c => thenAdvance 2 (c.bit .Absolute)
  | 0x30 => c.bmi.map .next
  | 0xd0 => c.bne.map .next
  | 0x10 => c.bpl.map .next
  | 0x50 => c.bvc.map .next
  | 0x70 => c.bvs.map .next
  | 0x18 => some (.next c.clc)
  | 0xd8 => some (.next c.cld)
  | 0x58 => some (.next c.cli)
  | 0xb8 => some (.next c.clv)
  | 0xc9 => thenAdvance 1 (c.cmp .Immediate)
  | 0xc5 => thenAdvance 1 (c.cmp .ZeroPage)
  | 0xd5 => thenAdvance 1 (c.cmp .ZeroPageX)
  | 0xcd => thenAdvance 2 (c.cmp .Absolute)
  | 0xdd => thenAdvance 2 (c.cmp .AbsoluteX)
  | 0xd9 => thenAdvance 2 (c.cmp .AbsoluteY)
  | 0xc1 => thenAdvance 1 (c.cmp .IndirectX)
  | 0xd1 => thenAdvance 1 (c.cmp .IndirectY)
  | 0xe0 => thenAdvance 1 (c.cpx .Immediate)
  | 0xe4 => thenAdvance 1 (c.cpx .ZeroPage)
  | 0xec => thenAdvance 2 (c.cpx .Absolute)
  | 0xc0 => thenAdvance 1 (c.cpy .Immediate)
  | 0xc4 => thenAdvance 1 (c.cpy .Immediate)
  | 0xcc => thenAdvance 2 (c.cpy .Absolute)
  | 0xc6 => thenAdvance 1 (c.dec .ZeroPage)
  | 0xd6 => thenAdvance 1 (c.dec .ZeroPageX)
  | 0xce => thenAdvance 2 (c.dec .Absolute)
  | 0xde => thenAdvance 2 (c.dec .AbsoluteX)
  | 0xca => some (.next c.dex)
  | 0x88 => some (.next c.dey)
  | 0x49 => thenAdvance 1 (c.eor .Immediate)
  | 0x45 => thenAdvance 1 (c.eor .ZeroPage)
  | 0x55 => thenAdvance 1 (c.eor .ZeroPageX)
  | 0x4d => thenAdvance 2 (c.eor .Absolute)
  | 0x5d => thenAdvance 2 (c.eor .AbsoluteX)
  | 0x59 => thenAdvance 2 (c.eor .AbsoluteY)
  | 0x41 => thenAdvance 1 (c.eor .IndirectX)
  | 0x51 => thenAdvance 1 (c.eor .IndirectY)
  | 0xe6 => thenAdvance 1 (c.inc .ZeroPage)
  | 0xf6 => thenAdvance 1 (c.inc .ZeroPageX)
  | 0xee => thenAdvance 2 (c.inc .Absolute)
  | 0xfe => thenAdvance 2 (c.inc .AbsoluteX)
  | 0xe8 => some (.next c.inx)
  | 0xc8 => some (.next c.iny)
  | 0x4c => c.jmp_absolute.map .next
  | 0x6c => c.jmp_indirect.map .next
  | 0x20 => c.jsr.map .next
  | 0xa9 => thenAdvance 1 (c.lda .Immediate)
  | 0xa5 => thenAdvance 1 (c.lda .ZeroPage)
  | 0xb5 => thenAdvance 1 (c.lda .ZeroPageX)
  | 0xad => thenAdvance 2 (c.lda .Absolute)
  | 0xbd => thenAdvance 2 (c.lda .AbsoluteX)
  | 0xb9 => thenAdvance 2 (c.lda .AbsoluteY)
  | 0xa1 => thenAdvance 1 (c.lda .IndirectX)
  | 0xb1 => thenAdvance 1 (c.lda .IndirectY)
  | 0xa2 => thenAdvance 1 (c.ldx .Immediate)
  | 0xa6 => thenAdvance 1 (c.ldx .ZeroPage)
  | 0xb6 => thenAdvance 1 (c.ldx .ZeroPageY)
  | 0xae => thenAdvance 2 (c.ldx .Absolute)
  | 0xbe => thenAdvance 2 (c.ldx .AbsoluteY)
  | 0xa0 => thenAdvance 1 (c.ldy .Immediate)
  | 0xa4 => thenAdvance 1 (c.ldy .ZeroPage)
  | 0xb4 => thenAdvance 1 (c.ldy .ZeroPageX)
  | 0xac => thenAdvance 2 (c.ldy .Absolute)
  | 0xbc => thenAdvance 2 (c.ldy .AbsoluteX)
  | 0x4a => some (.next c.lsr_accumulator)
  | 0x46 => thenAdvance 1 (c.lsr .ZeroPage)
  | 0x56 => thenAdvance 1 (c.lsr .ZeroPageX)
  | 0x4e => thenAdvance 2 (c.lsr .Absolute)
  | 0x5e => thenAdvance 2 (c.lsr .AbsoluteX)
  | 0x09 => thenAdvance 1 (c.ora .Immediate)
  | 0x05 => thenAdvance 1 (c.ora .ZeroPage)
  | 0x15 => thenAdvance 1 (c.ora .ZeroPageX)
  | 0x0d => thenAdvance 2 (c.ora .Absolute)
  | 0x1d => thenAdvance 2 (c.ora .AbsoluteX)
  | 0x19 => thenAdvance 2 (c.ora .AbsoluteY)
  | 0x01 => thenAdvance 1 (c.ora .IndirectX)
  | 0x11 => thenAdvance 1 (c.ora .IndirectY)
  | 0x48 => c.pha.map .next
  | 0x08 => c.php.map .next
  | 0x68 => c.pla.map .next
  | 0x28 => c.plp.map .next
  | 0x2a => some (.next c.rol_accumulator)
  | 0x26 => thenAdvance 1 (c.rol .ZeroPage)
  | 0x36 => thenAdvance 1 (c.rol .ZeroPageX)
  | 0x2e => thenAdvance 2 (c.rol .Absolute)
  | 0x3e => thenAdvance 2 (c.rol .AbsoluteX)
  | 0x6a => some (.next c.ror_accumulator)
  | 0x66 => thenAdvance 1 (c.ror .ZeroPage)
  | 0x76 => thenAdvance 1 (c.ror .ZeroPageX)
  | 0x6e => thenAdvance 2 (c.ror .Absolute)
  | 0x7e => thenAdvance 2 (c.ror .AbsoluteX)
  | 0x40 => c.rti.map .next
  | 0x60 => c.rts.map .next
  | 0xe9 => thenAdvance 1 (c.sbc .Immediate)
  | 0xe5 => thenAdvance 1 (c.sbc .ZeroPage)
  | 0xf5 => thenAdvance 1 (c.sbc .ZeroPageX)
  | 0xed => thenAdvance 2 (c.sbc .Absolute)
  | 0xfd => thenAdvance 2 (c.sbc .AbsoluteX)
  | 0xf9 => thenAdvance 2 (c.sbc .AbsoluteY)
  | 0xe1 => thenAdvance 1 (c.sbc .IndirectX)
  | 0xf1 => thenAdvance 1 (c.sbc .IndirectY)
  | 0x38 => some (.next c.sec)
  | 0xf8 => some (.next c.sed)
  | 0x78 => some (.next c.sei)
  | 0x85 => thenAdvance 1 (c.sta .ZeroPage)
  | 0x95 => thenAdvance 1 (c.sta .ZeroPageX)
  | 0x8d => thenAdvance 2 (c.sta .Absolute)
  | 0x9d => thenAdvance 2 (c.sta .AbsoluteX)
  | 0x99 => thenAdvance 2 (c.sta .AbsoluteY)
  | 0x81 => thenAdvance 1 (c.sta .IndirectX)
  | 0x91 => thenAdvance 1 (c.sta .IndirectY)
  | 0x86 => thenAdvance 1 (c.stx .ZeroPage)
  | 0x96 => thenAdvance 1 (c.stx .ZeroPageY)
  | 0x8e => thenAdvance 2 (c.stx .Absolute)
  | 0x84 => thenAdvance 1 (c.sty .ZeroPage)
  | 0x94 => thenAdvance 1 (c.sty .ZeroPageX)
  | 0x8c => thenAdvance 2 (c.sty .Absolute)
  | 0xaa => some (.next c.tax)
  | 0xa8 => some (.next c.tay)
  | 0xba => some (.next c.tsx)
  | 0x8a => some (.next c.txa)
  | 0x9a => some (.next c.txs)
  | 0x98 => some (.next c.tya)
  | 0xea => some (.next c)
  | 0x00 => some (.halted c)
  | _ => none

/-- One iteration of the `loop` in `run_with_callback`: fetch the opcode at
PC, advance PC past it (`self.pc += 1`, checked `+`), then dispatch. -/
def CPU.step (c : CPU) : Option StepOutcome := do
  let opscode ← c.mem_read c.pc
  let p ← u16_checked_add c.pc 1
  dispatch opscode { c with pc := p }

/-- `fn run_with_callback<F>(&mut self, mut callback: F)`.  The host
callback is modelled by `f` (it may mutate the CPU); the returned list
records, in order, the states passed to the callback, and the final CPU is
the state at the `return` from the loop.  `fuel` bounds the number of
iterations; exhaustion is `none` (the source loop just keeps running). -/
def CPU.run_with_callback (f : CPU → CPU) : Nat → CPU → Option (List CPU × CPU)
  | 0, _ => none
  | fuel + 1, c =>
    match c.step with
    | none => none
    | some (.halted ch) => some ([], ch)
    | some (.next c1) =>
      match CPU.run_with_callback f fuel (f c1) with
      | none => none
      | some (tr, fin) => some (c1 :: tr, fin)

/-- Finite association-list memory image (unlisted cells are zero), used to
build concrete CPU states. -/
def memOf : List (Nat × Nat) → Nat → Nat
  | [], _ => 0
  | (a, v) :: rest, i => if i = a then v else memOf rest i

/-- Concrete state for opcode `0x79`: ADC with a 16-bit base of `0x0300` at
the operand bytes, X = 1, Y = 2; the X-indexed cell `0x0301` holds `0x11`
and the Y-indexed cell `0x0302` holds `0x22`. -/
def cpuC2a : CPU :=
  { CPU.new with
    pc := 0x0200, rx := 1, ry := 2,
    memory := memOf [(0x0200, 0x79), (0x0201, 0x00), (0x0202, 0x03),
                     (0x0301, 0x11), (0x0302, 0x22)] }

/-- Concrete state for opcode `0xC4`: CPY with operand byte `0x05`, Y = 5,
and zero-page cell `0x0005` holding `0x30`. -/
def cpuC2b : CPU :=
  { CPU.new with
    pc := 0x0200, ry := 5,
    memory := memOf [(0x0200, 0xc4), (0x0201, 0x05), (0x0005, 0x30)] }

/-- Concrete state for memory-form ROL: PC at the operand byte `0x42`, and
cell `0x42` holding `0x80`, so the rotated result is zero (carry clear). -/
def cpuC3a : CPU :=
  { CPU.new with pc := 0x0200, memory := memOf [(0x0200, 0x42), (0x42, 0x80)] }

/-- Concrete state for memory-form ROR: PC at the operand byte `0x42`, and
cell `0x42` holding `0x01`, so the rotated result is zero (carry clear). -/
def cpuC3b : CPU :=
  { CPU.new with pc := 0x0200, memory := memOf [(0x0200, 0x42), (0x42, 0x01)] }

/-- Concrete state for IndirectX resolution with zero-page pointer
`p = 0xFF` (operand byte `0xFF`, X = 0): cell `0x00FF` holds the low
pointer byte `0x34`, cell `0x0100` holds `0x12`, and cell `0x0000` (where a
page-zero-wrapped fetch would look) holds `0x99`. -/
def cpuC4 : CPU :=
  { CPU.new with
    pc := 0x0200,
    memory := memOf [(0x0200, 0xff), (0x00ff, 0x34), (0x0100, 0x12),
                     (0x0000, 0x99)] }

/-- Concrete state for the JMP-indirect page-wrap quirk: the pointer at PC
is `0x02FF` (end of a page); cell `0x02FF` holds `0x34`, cell `0x0200`
holds `0x12`, and cell `0x0300` (the non-quirk location of the high byte)
holds `0x77`. -/
def cpuC8 : CPU :=
  { CPU.new with
    pc := 0x10,
    memory := memOf [(0x10, 0xff), (0x11, 0x02), (0x02ff, 0x34),
                     (0x0200, 0x12), (0x0300, 0x77)] }

/-- Concrete state whose next opcode is NOP (`0xEA`) at PC = 0. -/
def cpuC9 : CPU := { CPU.new with memory := memOf [(0, 0xea)] }

/-- Concrete state for the ordinary (non-page-end) JMP-indirect branch: the
pointer at PC is `0x0200`; cells `0x0200`/`0x0201` hold the target
`0x1234`. -/
def cpuC8b : CPU :=
  { CPU.new with
    pc := 0x10,
    memory := memOf [(0x10, 0x00), (0x11, 0x02), (0x0200, 0x34),
                     (0x0201, 0x12)] }

/-- Concrete state for the ADC/SBC round trip: A = 0, carry clear, and the
operand byte at PC is 0. -/
def cpuC6 : CPU := { CPU.new with pc := 0x0200 }

/-- Concrete state for the stack-order edge case: SP = 0, so a 16-bit push
wraps between its two byte pushes. -/
def cpuC7 : CPU := { CPU.new with rs := 0 }

/-- C1: the spec asserts a 65,536-byte backing array so that every 16-bit
address is in bounds; the source allocates `[u8; 0xFFFF]` (65535 bytes), so
reading or writing address `0xFFFF` indexes out of range (a panic) for
every CPU state, while `0xFFFE` is still in bounds. -/
theorem c1_mem_access_at_ffff_out_of_bounds :
    ∀ c : CPU, c.mem_read 0xffff = none ∧ c.mem_write 0xffff 0 = none ∧
      c.mem_read 0xfffe = some (c.memory 0xfffe) := by
  intro c
  refine ⟨?_, ?_, ?_⟩ <;> simp [CPU.mem_read, CPU.mem_write, MEM_SIZE]

/-- C2: in the decode loop, opcode `0x79` is routed to ADC with AbsoluteX
(the accumulator receives the X-indexed byte `0x11`, where ADC with
AbsoluteY on the same state would receive `0x22`), and opcode `0xC4` is
routed to CPY with Immediate (the comparison is against the operand byte
itself, setting Z, where CPY with ZeroPage on the same state would clear
Z).  This contradicts the claimed AbsoluteY / ZeroPage routing. -/
theorem c2_opcode_79_c4_misrouted :
    ((CPU.step cpuC2a).map (fun o => o.cpu.ra) = some 0x11 ∧
     (CPU.adc { cpuC2a with pc := 0x0201 } .AbsoluteY).map (fun x => x.ra) =
       some 0x22) ∧
    ((CPU.step cpuC2b).map (fun o => o.cpu.rp.zero) = some true ∧
     (CPU.cpy { cpuC2b with pc := 0x0201 } .ZeroPage).map
         (fun x => x.rp.zero) = some false) := by
  decide

/-- C3: the memory forms of ROL and ROR write back a stored result of zero
yet leave the Z flag false (only N is updated), contradicting the claim
that both Z and N are updated on the stored result. -/
theorem c3_rol_ror_memory_skip_zero_flag :
    ((CPU.rol cpuC3a .ZeroPage).map
        (fun x => (x.memory 0x42, x.rp.zero, x.rp.negative)) =
      some (0, false, false)) ∧
    ((CPU.ror cpuC3b .ZeroPage).map
        (fun x => (x.memory 0x42, x.rp.zero, x.rp.negative)) =
      some (0, false, false)) := by
  decide

/-- Helper: a read below `MEM_SIZE` succeeds and returns the cell value. -/
theorem mem_read_lt (c : CPU) (addr : Nat) (h : addr < MEM_SIZE) :
    c.mem_read addr = some (c.memory addr) := by
  simp [CPU.mem_read, h]

/-- Helper: a successful read pins the address below `MEM_SIZE` and the
returned value to the cell value. -/
theorem mem_read_some {c : CPU} {addr b : Nat}
    (h : c.mem_read addr = some b) : addr < MEM_SIZE ∧ c.memory addr = b := by
  by_cases hlt : addr < MEM_SIZE
  · refine ⟨hlt, ?_⟩
    simpa [CPU.mem_read, hlt] using h
  · simp [CPU.mem_read, hlt] at h

/-- C4, counterexample: with zero-page pointer `p = 0xFF` the IndirectX
resolver of the source fetches the high pointer byte from address `0x0100`
(value `0x12`), not from `(p+1) mod 256 = 0x0000` (value `0x99`): the
resolved address is `0x1234`, where the claimed page-zero wraparound would
give `0x9934`.  The same state refutes the claim for IndirectY. -/
theorem c4_high_byte_from_0x0100 :
    (cpuC4.get_operand_address .IndirectX = some 0x1234 ∧
     cpuC4.memory 0x0100 = 0x12 ∧ cpuC4.memory 0x0000 = 0x99 ∧
     cpuC4.get_operand_address .IndirectX ≠ some 0x9934) ∧
    (cpuC4.get_operand_address .IndirectY = some 0x1234 ∧
     cpuC4.get_operand_address .IndirectY ≠ some 0x9934) := by
  decide

/-- C4, amended: IndirectX and IndirectY operand resolution fetches the low
pointer byte from the zero-page pointer `p` and the high pointer byte from
`p + 1` computed in full 16-bit arithmetic — that is, from address `0x0100`
when `p = 0xFF`, never wrapping back into page zero. -/
theorem c4_indirect_high_byte_at_p_plus_one :
    ∀ (c : CPU) (b : Nat), c.mem_read c.pc = some b →
      c.get_operand_address .IndirectX =
        some ((c.memory (wrap8 (b + c.rx) + 1)) <<< 8 |||
              c.memory (wrap8 (b + c.rx))) ∧
      (b < 0x100 → c.get_operand_address .IndirectY =
        some (wrap16 (((c.memory (b + 1)) <<< 8 ||| c.memory b) + c.ry))) := by
  intro c b h
  obtain ⟨hpc, hb⟩ := mem_read_some h
  constructor
  · have hp : wrap8 (b + c.rx) < 0x100 := Nat.mod_lt _ (by norm_num)
    have h1 : wrap16 (wrap8 (b + c.rx) + 1) = wrap8 (b + c.rx) + 1 := by
      unfold wrap16
      omega
    have hlo := mem_read_lt c (wrap8 (b + c.rx)) (by unfold MEM_SIZE; omega)
    have hhi := mem_read_lt c (wrap8 (b + c.rx) + 1) (by unfold MEM_SIZE; omega)
    simp only [CPU.get_operand_address, h, Option.bind_eq_bind,
      Option.some_bind, h1, hlo, hhi]
  · intro hblt
    have h1 : wrap16 (b + 1) = b + 1 := by
      unfold wrap16
      omega
    have hlo := mem_read_lt c b (by unfold MEM_SIZE; omega)
    have hhi := mem_read_lt c (b + 1) (by unfold MEM_SIZE; omega)
    simp only [CPU.get_operand_address, h, Option.bind_eq_bind,
      Option.some_bind, h1, hlo, hhi]

/-- C4, witness for the amended theorem, at the concrete state `cpuC4`
(pointer `p = 0xFF`): the resolver reads the high byte from `0x0100`. -/
theorem c4_witness :
    cpuC4.mem_read cpuC4.pc = some 0xff ∧
    (cpuC4.get_operand_address .IndirectX =
      some ((cpuC4.memory (wrap8 (0xff + cpuC4.rx) + 1)) <<< 8 |||
            cpuC4.memory (wrap8 (0xff + cpuC4.rx))) ∧
     (0xff < 0x100 → cpuC4.get_operand_address .IndirectY =
        some (wrap16 (((cpuC4.memory (0xff + 1)) <<< 8 |||
          cpuC4.memory 0xff) + cpuC4.ry)))) :=
  ⟨by decide, c4_indirect_high_byte_at_p_plus_one cpuC4 0xff (by decide)⟩

/-- C5, counterexample: `mem_read_u16` at `0xFFFE` and `0xFFFF` faults (the
65535-byte array has no cell `0xFFFF`), contradicting the claim that the
high-byte address wraps modulo 2^16 and that address arithmetic never
faults. -/
theorem c5_read16_at_top_faults :
    CPU.new.mem_read_u16 0xffff = none ∧
    CPU.new.mem_read_u16 0xfffe = none := by
  decide

/-- C5, amended: for every address with `addr + 1 < 0xFFFF`, `mem_read_u16`
returns the little-endian combination `read8(addr) | (read8(addr+1) << 8)`;
at `0xFFFE` and `0xFFFF` it faults instead of wrapping (the high-byte
address is `addr + 1` unwrapped, and cell `0xFFFF` does not exist). -/
theorem c5_read16_little_endian_below_top :
    ∀ (c : CPU) (addr : Nat), addr + 1 < MEM_SIZE →
      c.mem_read_u16 addr = some (256 * c.memory (addr + 1) + c.memory addr) ∧
      c.mem_read_u16 0xfffe = none ∧ c.mem_read_u16 0xffff = none := by
  intro c addr h
  have h16 : u16_checked_add addr 1 = some (addr + 1) := by
    unfold u16_checked_add MEM_SIZE at *
    rw [if_pos]
    omega
  refine ⟨?_, ?_, ?_⟩
  · simp only [CPU.mem_read_u16, Option.bind_eq_bind]
    rw [mem_read_lt c addr (by omega), Option.some_bind, h16,
      Option.some_bind, mem_read_lt c (addr + 1) h, Option.some_bind]
  · simp [CPU.mem_read_u16, CPU.mem_read, MEM_SIZE, u16_checked_add]
  · simp [CPU.mem_read_u16, CPU.mem_read, MEM_SIZE, u16_checked_add]

/-- C5, witness for the amended theorem at address `0x10` of the zero-filled
fresh CPU. -/
theorem c5_witness :
    0x10 + 1 < MEM_SIZE ∧
    (CPU.new.mem_read_u16 0x10 =
        some (256 * CPU.new.memory (0x10 + 1) + CPU.new.memory 0x10) ∧
      CPU.new.mem_read_u16 0xfffe = none ∧
      CPU.new.mem_read_u16 0xffff = none) :=
  ⟨by decide, c5_read16_little_endian_below_top CPU.new 0x10 (by decide)⟩

/-- Helper: `add_to_reg_a` leaves PC unchanged. -/
theorem add_to_reg_a_pc (c : CPU) (val : Nat) :
    (c.add_to_reg_a val).pc = c.pc := rfl

/-- Helper: `add_to_reg_a` leaves memory unchanged. -/
theorem add_to_reg_a_memory (c : CPU) (val : Nat) :
    (c.add_to_reg_a val).memory = c.memory := rfl

/-- Helper: the accumulator after `add_to_reg_a` is the 8-bit sum of the
old accumulator, the operand and the incoming carry. -/
theorem add_to_reg_a_ra (c : CPU) (val : Nat) :
    (c.add_to_reg_a val).ra =
      wrap8 (c.ra + val + (if c.rp.carry then 1 else 0)) := rfl

/-- Helper: the carry after `add_to_reg_a` records overflow of the 8-bit
sum. -/
theorem add_to_reg_a_carry (c : CPU) (val : Nat) :
    (c.add_to_reg_a val).rp.carry =
      decide (0xff < c.ra + val + (if c.rp.carry then 1 else 0)) := rfl

/-- Helper: the byte arithmetic of ADC followed by SBC on the same operand,
with carry propagated: the final accumulator is `(A + k + co + 255) % 256`
(`k` the incoming carry bit, `co` the ADC carry-out bit), which equals `A`
exactly when `k + co = 1`. -/
theorem adc_sbc_arith (A m k : Nat) (hA : A < 0x100) (hm : m < 0x100)
    (hk : k ≤ 1) :
    ∀ co, co = (if 0xff < A + m + k then 1 else 0 : Nat) →
      ((A + m + k) % 0x100 + ((0x100 - m) % 0x100 + 0xff) % 0x100 + co) %
          0x100 = (A + k + co + 0xff) % 0x100 ∧
      ((A + k + co + 0xff) % 0x100 = A ↔ k + co = 1) := by
  intro co hco
  by_cases h : 0xff < A + m + k
  · rw [if_pos h] at hco
    subst hco
    constructor <;> omega
  · rw [if_neg h] at hco
    subst hco
    constructor <;> omega

/-- C6, counterexample: with A = 0, carry clear and operand M = 0, ADC(M)
followed by SBC(M) (carry propagated untouched in between) leaves the
accumulator at `0xFF`, not at the initial A = 0: the claimed round trip
fails. -/
theorem c6_adc_sbc_roundtrip_fails :
    cpuC6.ra = 0 ∧ cpuC6.rp.carry = false ∧
    cpuC6.mem_read cpuC6.pc = some 0 ∧
    ((cpuC6.adc .Immediate).bind (fun x => x.sbc .Immediate)).map
        (fun x => x.ra) = some 0xff := by
  decide

/-- C6, amended: for byte-valued A and M with the operand byte M at PC,
ADC(M) followed by SBC(M) (with the carry between the steps exactly the
carry produced by the ADC) yields accumulator
`(A + Cin + Cout + 255) mod 256`, where `Cin` is the carry bit before the
ADC and `Cout` the carry bit the ADC produced; the initial A is restored
exactly when `Cin + Cout = 1`, not for all inputs as claimed. -/
theorem c6_adc_sbc_roundtrip_formula :
    ∀ (c : CPU) (m : Nat), c.ra < 0x100 → m < 0x100 →
      c.mem_read c.pc = some m →
      ∃ c1 c2, c.adc .Immediate = some c1 ∧ c1.sbc .Immediate = some c2 ∧
        c2.ra = (c.ra + (if c.rp.carry then 1 else 0) +
                 (if c1.rp.carry then 1 else 0) + 0xff) % 0x100 ∧
        (c2.ra = c.ra ↔ (if c.rp.carry then 1 else 0) +
          (if c1.rp.carry then 1 else 0) = 1) := by
  intro c m hA hm hrd
  have hadc : c.adc .Immediate = some (c.add_to_reg_a m) := by
    simp [CPU.adc, CPU.get_operand_address, hrd]
  have hrd1 : (c.add_to_reg_a m).mem_read (c.add_to_reg_a m).pc = some m := by
    rw [CPU.mem_read, add_to_reg_a_pc, add_to_reg_a_memory]
    rw [CPU.mem_read] at hrd
    exact hrd
  have hsbc : (c.add_to_reg_a m).sbc .Immediate =
      some ((c.add_to_reg_a m).add_to_reg_a
        (wrap8 ((0x100 - m) % 0x100 + 0xff))) := by
    simp [CPU.sbc, CPU.get_operand_address, hrd1]
  have hk : (if c.rp.carry then 1 else 0 : Nat) ≤ 1 := by
    cases c.rp.carry <;> simp
  have hcoeq : (if (c.add_to_reg_a m).rp.carry then 1 else 0 : Nat) =
      (if 0xff < c.ra + m + (if c.rp.carry then 1 else 0) then 1 else 0) := by
    rw [add_to_reg_a_carry]
    by_cases h : 0xff < c.ra + m + (if c.rp.carry then 1 else 0) <;> simp [h]
  have H := adc_sbc_arith c.ra m (if c.rp.carry then 1 else 0) hA hm hk _ rfl
  refine ⟨c.add_to_reg_a m, _, hadc, hsbc, ?_, ?_⟩
  · rw [add_to_reg_a_ra, add_to_reg_a_ra, hcoeq]
    unfold wrap8
    exact H.1
  · rw [add_to_reg_a_ra, add_to_reg_a_ra, hcoeq]
    unfold wrap8
    rw [H.1]
    exact H.2

/-- C6, witness for the amended theorem: A = 0, M = 0, carry clear at
`cpuC6`. -/
theorem c6_witness :
    cpuC6.ra < 0x100 ∧
    ∃ c1 c2, cpuC6.adc .Immediate = some c1 ∧ c1.sbc .Immediate = some c2 ∧
      c2.ra = (cpuC6.ra + (if cpuC6.rp.carry then 1 else 0) +
               (if c1.rp.carry then 1 else 0) + 0xff) % 0x100 ∧
      (c2.ra = cpuC6.ra ↔ (if cpuC6.rp.carry then 1 else 0) +
        (if c1.rp.carry then 1 else 0) = 1) :=
  ⟨by decide, c6_adc_sbc_roundtrip_formula cpuC6 0 (by decide) (by decide)
    (by decide)⟩

/-- Helper: explicit form of `stack_push` for an in-range stack pointer. -/
theorem stack_push_eq (c : CPU) (b : Nat) (h : c.rs < 0x100) :
    c.stack_push b = some { c with
      memory := fun i => if i = STACK + c.rs then b else c.memory i,
      rs := wrap8 (c.rs + 0xff) } := by
  unfold CPU.stack_push CPU.mem_write
  rw [if_pos (by unfold STACK MEM_SIZE; omega)]
  rfl

/-- Helper: explicit form of `stack_pop` (the stack page is always in
range). -/
theorem stack_pop_eq (c : CPU) :
    c.stack_pop = some (c.memory (STACK + wrap8 (c.rs + 1)),
      { c with rs := wrap8 (c.rs + 1) }) := by
  have h : STACK + wrap8 (c.rs + 1) < MEM_SIZE := by
    have : wrap8 (c.rs + 1) < 0x100 := Nat.mod_lt _ (by norm_num)
    unfold STACK MEM_SIZE
    omega
  simp only [CPU.stack_pop, CPU.mem_read, if_pos h, Option.bind_eq_bind,
    Option.some_bind]

/-- Helper: a byte-decomposed 16-bit value recombines:
`((v >> 8) as u8) << 8 | (v & 0xff) = v` for `v < 2^16`. -/
theorem u16_bytes_recombine (v : Nat) (hv : v < 0x10000) :
    ((wrap8 (v >>> 8)) <<< 8) ||| (v &&& 0xff) = v := by
  have h1 : v &&& 0xff = v % 0x100 := by
    have h := Nat.and_pow_two_sub_one_eq_mod v 8
    norm_num at h
    exact h
  have h2 : wrap8 (v >>> 8) = v / 0x100 := by
    unfold wrap8
    rw [Nat.shiftRight_eq_div_pow]
    norm_num
    omega
  rw [h1, h2, Nat.shiftLeft_eq]
  have h3 : v % 0x100 < 2 ^ 8 := by omega
  rw [show v / 0x100 * 2 ^ 8 = 2 ^ 8 * (v / 0x100) from Nat.mul_comm _ _,
    ← Nat.mul_add_lt_is_or h3 (v / 0x100)]
  omega

/-- C7, counterexample: with SP = 0 a 16-bit push wraps between its two
byte pushes, so the low byte (`0x34`) lands at `0x01FF` and the high byte
(`0x12`) at `0x0100`: the low byte sits at the strictly *higher* stack
address, refuting the claimed byte order. -/
theorem c7_low_byte_higher_at_sp_zero :
    cpuC7.rs = 0 ∧
    (cpuC7.stack_push_u16 0x1234).map
        (fun x => (x.memory 0x01ff, x.memory 0x0100)) = some (0x34, 0x12) ∧
    (0x0100 : Nat) < 0x01ff := by
  decide

/-- C7, amended: for every CPU state with a byte-valued SP, `push8; pop8`
round-trips the byte with SP unchanged (including across the 0x00/0xFF
wraparound), and `push16; pop16` round-trips any 16-bit value with SP
unchanged; after the 16-bit push the low byte is at
`0x0100 + ((SP - 1) mod 256)` and the high byte at `0x0100 + SP`, so the
low byte sits at the lower address whenever SP ≠ 0 (when SP = 0 the low
byte wraps to `0x01FF`, above the high byte). -/
theorem c7_stack_roundtrip :
    ∀ (c : CPU) (b v : Nat), c.rs < 0x100 → v < 0x10000 →
      (∃ c1 r, c.stack_push b = some c1 ∧ c1.stack_pop = some r ∧
        r.1 = b ∧ r.2.rs = c.rs) ∧
      (∃ c2 r2, c.stack_push_u16 v = some c2 ∧ c2.stack_pop_u16 = some r2 ∧
        r2.1 = v ∧ r2.2.rs = c.rs ∧
        c2.memory (STACK + wrap8 (c.rs + 0xff)) = v &&& 0xff ∧
        c2.memory (STACK + c.rs) = wrap8 (v >>> 8) ∧
        (0 < c.rs → STACK + wrap8 (c.rs + 0xff) < STACK + c.rs)) := by
  intro c b v hrs hv
  have hrs1 : wrap8 (c.rs + 0xff) < 0x100 := Nat.mod_lt _ (by norm_num)
  have hne : wrap8 (c.rs + 0xff) ≠ c.rs := by
    unfold wrap8
    omega
  have hback : wrap8 (wrap8 (c.rs + 0xff) + 1) = c.rs := by
    unfold wrap8
    omega
  have hback2 : wrap8 (wrap8 (wrap8 (c.rs + 0xff) + 0xff) + 1) =
      wrap8 (c.rs + 0xff) := by
    unfold wrap8
    omega
  constructor
  · obtain ⟨N, hN⟩ : ∃ N, (fun i =>
        if i = STACK + c.rs then b else c.memory i) = N := ⟨_, rfl⟩
    have hNv : N (STACK + c.rs) = b := by
      rw [← hN]
      simp
    have hpush8 := stack_push_eq c b hrs
    rw [hN] at hpush8
    have hpop8 : ({ c with memory := N, rs := wrap8 (c.rs + 0xff) }
        : CPU).stack_pop =
        some (N (STACK + c.rs), { c with memory := N, rs := c.rs }) := by
      rw [stack_pop_eq]
      simp only [hback]
    exact ⟨_, _, hpush8, hpop8, hNv, rfl⟩
  · obtain ⟨M, hM⟩ : ∃ M, (fun i =>
        if i = STACK + wrap8 (c.rs + 0xff) then v &&& 0xff
        else if i = STACK + c.rs then wrap8 (v >>> 8) else c.memory i) = M :=
      ⟨_, rfl⟩
    have hv_lo : M (STACK + wrap8 (c.rs + 0xff)) = v &&& 0xff := by
      rw [← hM]
      simp
    have hv_hi : M (STACK + c.rs) = wrap8 (v >>> 8) := by
      rw [← hM]
      simp only []
      rw [if_neg (by omega)]
      simp
    have hpush : c.stack_push_u16 v = some
        { c with memory := M, rs := wrap8 (wrap8 (c.rs + 0xff) + 0xff) } := by
      unfold CPU.stack_push_u16
      simp only [Option.bind_eq_bind]
      rw [stack_push_eq c _ hrs, Option.some_bind]
      rw [stack_push_eq _ _ hrs1, hM]
    have hpop :
        ({ c with memory := M, rs := wrap8 (wrap8 (c.rs + 0xff) + 0xff) }
          : CPU).stack_pop_u16 =
        some ((M (STACK + c.rs)) <<< 8 ||| M (STACK + wrap8 (c.rs + 0xff)),
          { c with memory := M, rs := c.rs }) := by
      unfold CPU.stack_pop_u16
      simp only [Option.bind_eq_bind]
      rw [stack_pop_eq]
      simp only [hback2, Option.some_bind]
      rw [stack_pop_eq]
      simp only [hback, Option.some_bind]
    refine ⟨_, (v, { c with memory := M, rs := c.rs }), hpush, ?_, rfl, rfl,
      hv_lo, hv_hi, ?_⟩
    · rw [hpop, hv_hi, hv_lo, u16_bytes_recombine v hv]
    · intro hpos
      unfold wrap8
      unfold wrap8 at hrs1 hne
      omega

/-- C7, witness for the amended theorem: byte `0x7E` and value `0x1234` on
the fresh CPU (SP = `0xFD`). -/
theorem c7_witness :
    CPU.new.rs < 0x100 ∧
    ((∃ c1 r, CPU.new.stack_push 0x7e = some c1 ∧ c1.stack_pop = some r ∧
        r.1 = 0x7e ∧ r.2.rs = CPU.new.rs) ∧
     (∃ c2 r2, CPU.new.stack_push_u16 0x1234 = some c2 ∧
        c2.stack_pop_u16 = some r2 ∧ r2.1 = 0x1234 ∧ r2.2.rs = CPU.new.rs ∧
        c2.memory (STACK + wrap8 (CPU.new.rs + 0xff)) = 0x1234 &&& 0xff ∧
        c2.memory (STACK + CPU.new.rs) = wrap8 (0x1234 >>> 8) ∧
        (0 < CPU.new.rs →
          STACK + wrap8 (CPU.new.rs + 0xff) < STACK + CPU.new.rs))) :=
  ⟨by decide, c7_stack_roundtrip CPU.new 0x7e 0x1234 (by decide) (by decide)⟩

/-- C8: with `addr` the 16-bit pointer read at PC, JMP indirect ends at a
PC whose low byte is read from `addr` and whose high byte is read from
`addr & 0xFF00` when `addr & 0x00FF = 0x00FF` (the 6502 page-wrap quirk),
and at `read16(addr)` otherwise.  The quirk branch needs `addr` itself to
be a readable cell (`addr < 0xFFFF`), C1's array bound. -/
theorem c8_jmp_indirect_page_wrap :
    ∀ (c : CPU) (addr : Nat), c.mem_read_u16 c.pc = some addr →
      (addr &&& 0x00ff = 0x00ff → addr < MEM_SIZE →
        c.jmp_indirect = some { c with
          pc := (c.memory (addr &&& 0xff00)) <<< 8 ||| c.memory addr }) ∧
      (addr &&& 0x00ff ≠ 0x00ff → ∀ v, c.mem_read_u16 addr = some v →
        c.jmp_indirect = some { c with pc := v }) := by
  intro c addr h
  constructor
  · intro hff hlt
    have hhi := mem_read_lt c (addr &&& 0xff00)
      (lt_of_le_of_lt Nat.and_le_left hlt)
    have hlo := mem_read_lt c addr hlt
    simp only [CPU.jmp_indirect, Option.bind_eq_bind, h, Option.some_bind,
      hff, beq_self_eq_true, if_true, hlo, hhi]
  · intro hne v hv
    have hc : (addr &&& 0x00ff == 0x00ff) = false := by
      simp [hne]
    simp only [CPU.jmp_indirect, Option.bind_eq_bind, h, Option.some_bind,
      hc, Bool.false_eq_true, if_false, hv]

/-- C8, witness: the quirk branch at `cpuC8` (pointer `0x02FF`, landing at
`0x1234` with the high byte from `0x0200`), and the ordinary branch at
`cpuC8b` (pointer `0x0200`, landing at `read16(0x0200) = 0x1234`). -/
theorem c8_witness :
    (cpuC8.jmp_indirect = some { cpuC8 with
      pc := (cpuC8.memory (0x02ff &&& 0xff00)) <<< 8 |||
        cpuC8.memory 0x02ff }) ∧
    (cpuC8b.jmp_indirect = some { cpuC8b with pc := 0x1234 }) :=
  ⟨(c8_jmp_indirect_page_wrap cpuC8 0x02ff (by decide)).1 (by decide)
      (by decide),
   (c8_jmp_indirect_page_wrap cpuC8b 0x0200 (by decide)).2 (by decide)
      0x1234 (by decide)⟩

/-- Helper: fetching a BRK opcode halts the loop with only PC advanced past
the opcode byte. -/
theorem step_brk (c : CPU) (h : c.mem_read c.pc = some 0) :
    c.step = some (StepOutcome.halted { c with pc := c.pc + 1 }) := by
  obtain ⟨hlt, _⟩ := mem_read_some h
  have hadd : u16_checked_add c.pc 1 = some (c.pc + 1) := by
    unfold u16_checked_add
    rw [if_pos (by unfold MEM_SIZE at hlt; omega)]
  simp only [CPU.step, Option.bind_eq_bind, h, Option.some_bind, hadd]
  rfl

/-- C9: in `run_with_callback`, when the fetched opcode is BRK the loop
returns with an empty callback trace (the callback is not invoked for that
step); when an instruction dispatches successfully to a continuing state
`c1`, the callback trace of the whole run is exactly `c1` (the
post-instruction state, passed to the callback once) followed by the trace
of the rest of the run, which resumes from the callback-mutated state
`f c1`. -/
theorem c9_callback_once_per_instruction :
    ∀ (f : CPU → CPU) (fuel : Nat) (c : CPU),
      (c.mem_read c.pc = some 0 →
        ∃ ch, CPU.run_with_callback f (fuel + 1) c = some ([], ch)) ∧
      (∀ c1, c.step = some (StepOutcome.next c1) →
        CPU.run_with_callback f (fuel + 1) c =
          (CPU.run_with_callback f fuel (f c1)).map
            (fun r => (c1 :: r.1, r.2))) := by
  intro f fuel c
  constructor
  · intro h
    refine ⟨{ c with pc := c.pc + 1 }, ?_⟩
    simp only [CPU.run_with_callback, step_brk c h]
  · intro c1 hstep
    simp only [CPU.run_with_callback, hstep]
    cases hrec : CPU.run_with_callback f fuel (f c1) with
    | none => rfl
    | some r => rfl

/-- C9, witness: a BRK at PC = 0 of the fresh CPU returns with an empty
trace, and a NOP step at `cpuC9` contributes exactly one callback state. -/
theorem c9_witness :
    (∃ ch, CPU.run_with_callback (fun x => x) 1 CPU.new = some ([], ch)) ∧
    CPU.run_with_callback (fun x => x) 1 cpuC9 =
      (CPU.run_with_callback (fun x => x) 0
          ((fun x => x) { cpuC9 with pc := 1 })).map
        (fun r => ({ cpuC9 with pc := 1 } :: r.1, r.2)) :=
  ⟨(c9_callback_once_per_instruction (fun x => x) 0 CPU.new).1 (by decide),
   (c9_callback_once_per_instruction (fun x => x) 0 cpuC9).2
      { cpuC9 with pc := 1 } rfl⟩

/-- C10: when `run_with_callback` fetches a BRK opcode at address `a`, it
returns (with no callback invocation) in a state whose PC is `a + 1` and
whose registers, flags and memory are exactly those before the fetch. -/
theorem c10_brk_preserves_state :
    ∀ (f : CPU → CPU) (fuel : Nat) (c : CPU), c.mem_read c.pc = some 0 →
      ∃ ch, CPU.run_with_callback f (fuel + 1) c = some ([], ch) ∧
        ch.pc = c.pc + 1 ∧ ch.ra = c.ra ∧ ch.rx = c.rx ∧ ch.ry = c.ry ∧
        ch.rs = c.rs ∧ ch.rp = c.rp ∧ ch.memory = c.memory := by
  intro f fuel c h
  refine ⟨{ c with pc := c.pc + 1 }, ?_, rfl, rfl, rfl, rfl, rfl, rfl, rfl⟩
  simp only [CPU.run_with_callback, step_brk c h]

/-- C10, witness: a BRK fetched at PC = `0x0600` of a zero-filled CPU halts
with PC = `0x0601` and everything else untouched. -/
theorem c10_witness :
    ∃ ch, CPU.run_with_callback (fun x => x) 1 { CPU.new with pc := 0x0600 } =
        some ([], ch) ∧
      ch.pc = { CPU.new with pc := 0x0600 }.pc + 1 ∧
      ch.ra = CPU.new.ra ∧ ch.rx = CPU.new.rx ∧ ch.ry = CPU.new.ry ∧
      ch.rs = CPU.new.rs ∧ ch.rp = CPU.new.rp ∧
      ch.memory = CPU.new.memory :=
  c10_brk_preserves_state (fun x => x) 0 { CPU.new with pc := 0x0600 }
    (by decide)

end Sens
